import Mathlib

/-!
Verification development for the ray-tracer engine (sco1/ray-tracer-challenge).

The Python sources are shallowly embedded over exact rationals (`ℚ` stands in for
Python floats).  Wherever the source calls `math.sqrt`, the embedding takes an
explicit square-root function `sq : ℚ → ℚ` as a parameter; general theorems
quantify over `sq` under the properties the float `math.sqrt` satisfies
(non-negativity / positivity on positive inputs), and closed evaluations use the
exact rational square root `qsqrt` below, which agrees with `math.sqrt` on the
perfect-square inputs that arise in those evaluations.

Python's `math.isclose(x, 0)` uses a purely relative tolerance (`abs_tol = 0`),
so it holds iff `x == 0` exactly; it is embedded as equality with `0`.
Python division raises `ZeroDivisionError` on a zero denominator; the embedding
uses total `ℚ` division except where a claim is about division safety, where a
checked (`Option`-valued) division is used instead.
-/

set_option allowUnsafeReducibility true
set_option maxRecDepth 100000
attribute [semireducible] Rat.add Rat.sub Rat.mul Rat.inv Rat.ofScientific

namespace RayTracer

/-- Fuel-bounded Newton iteration for the integer square root (structural
recursion so concrete evaluations reduce). -/
def nsqrtGo (n : ℕ) : ℕ → ℕ → ℕ
  | 0, g => g
  | fuel + 1, g =>
      let g' := (g + n / g) / 2
      if g' < g then nsqrtGo n fuel g' else g

/-- Integer square root (floor); 64 Newton steps cover every value reachable
in the closed evaluations below. -/
def nsqrt (n : ℕ) : ℕ := if n ≤ 1 then n else nsqrtGo n 64 (n / 2 + 1)

/-- Exact rational square root: on a rational whose reduced numerator and
denominator are perfect squares this is the true square root (the only inputs
it receives in the closed evaluations below, on which it agrees with
`math.sqrt`); general theorems instead quantify over the square-root
function. -/
def qsqrt (q : ℚ) : ℚ :=
  if q ≤ 0 then 0 else (nsqrt q.num.natAbs : ℚ) / (nsqrt q.den : ℚ)

/-- EPSILON from the package root (`1e-5`), used for parallel-ray cutoffs and
the over/under point nudges. -/
def EPSILON : ℚ := 1 / 100000

/-- Sentinel standing in for `math.inf` in `Cube._check_axis`; the slab values
only feed comparisons and a final sort, and no claim depends on the overflow
semantics of the infinite branch. -/
def INF : ℚ := 10 ^ 30

/-- Rayple (rayple.py): the tagged (x, y, z) tuple.  The kind tag `w` carries
the numeric value of the `RaypleType` IntEnum: VECTOR = 0, POINT = 1, COLOR = 2. -/
structure Rayple where
  x : ℚ
  y : ℚ
  z : ℚ
  w : ℕ
deriving DecidableEq, Repr

/-- Shortcut for a Point Rayple (`w = 1`), rayple.py `point`. -/
def pointR (x y z : ℚ) : Rayple := ⟨x, y, z, 1⟩

/-- Shortcut for a Vector Rayple (`w = 0`), rayple.py `vector`. -/
def vectorR (x y z : ℚ) : Rayple := ⟨x, y, z, 0⟩

/-- Shortcut for a Color Rayple (`w = 2`), rayple.py `color`. -/
def colorR (r g b : ℚ) : Rayple := ⟨r, g, b, 2⟩

def WHITE : Rayple := colorR 1 1 1

def BLACK : Rayple := colorR 0 0 0

/-- Rayple.__add__: componentwise sum; the result tag is COLOR for colors and
otherwise the IntEnum sum (point + vector = point, vector + vector = vector). -/
def Rayple.add (p q : Rayple) : Rayple :=
  ⟨p.x + q.x, p.y + q.y, p.z + q.z, if p.w = 2 then 2 else p.w + q.w⟩

/-- Rayple.__sub__: componentwise difference with the IntEnum tag difference. -/
def Rayple.sub (p q : Rayple) : Rayple :=
  ⟨p.x - q.x, p.y - q.y, p.z - q.z, if p.w = 2 then 2 else p.w - q.w⟩

/-- Rayple.__neg__. -/
def Rayple.neg (p : Rayple) : Rayple := ⟨-p.x, -p.y, -p.z, p.w⟩

/-- Rayple.__mul__ with a scalar. -/
def Rayple.smul (p : Rayple) (k : ℚ) : Rayple := ⟨p.x * k, p.y * k, p.z * k, p.w⟩

/-- Rayple.__mul__ between two Colors (Hadamard product). -/
def Rayple.hadamard (p q : Rayple) : Rayple := ⟨p.x * q.x, p.y * q.y, p.z * q.z, p.w⟩

/-- rayple.py `dot` (defined for vectors). -/
def dotR (a b : Rayple) : ℚ := a.x * b.x + a.y * b.y + a.z * b.z

/-- Squared magnitude, the argument of `math.sqrt` in `Rayple.__abs__`. -/
def Rayple.mag2 (v : Rayple) : ℚ := v.x ^ 2 + v.y ^ 2 + v.z ^ 2

/-- Rayple.normalize: each component divided by `abs(self) = sqrt(mag2)`. -/
def Rayple.normalize (sq : ℚ → ℚ) (v : Rayple) : Rayple :=
  ⟨v.x / sq v.mag2, v.y / sq v.mag2, v.z / sq v.mag2, v.w⟩

/-- Modelled from the spec: `reflect(d, n) = d - n·(2·dot(d, n))` (§4.5).  The
`Rayple.reflect` method is called from intersections.py and lights.py but its
definition is not present in rayple.py. -/
def Rayple.reflect (d n : Rayple) : Rayple := d.sub (n.smul (2 * dotR d n))

/-- Rebuild a pure vector from the x, y, z components (the `vector(*world_normal)`
step that discards any translation artifact of an inverse-transpose). -/
def Rayple.toVector (v : Rayple) : Rayple := vectorR v.x v.y v.z

/-- Transform matrix (transforms.py `Matrix`): a 4×4 rational matrix.  The
float-noise clamp (`ZERO_TOL`) of the NumPy wrapper is an artifact of float
arithmetic and is dropped in the exact model. -/
structure Mat4 where
  a00 : ℚ
  a01 : ℚ
  a02 : ℚ
  a03 : ℚ
  a10 : ℚ
  a11 : ℚ
  a12 : ℚ
  a13 : ℚ
  a20 : ℚ
  a21 : ℚ
  a22 : ℚ
  a23 : ℚ
  a30 : ℚ
  a31 : ℚ
  a32 : ℚ
  a33 : ℚ
deriving DecidableEq, Repr

/-- Matrix.identity. -/
def matIdentity : Mat4 := ⟨1,0,0,0, 0,1,0,0, 0,0,1,0, 0,0,0,1⟩

/-- transforms.py `translation`. -/
def translationM (x y z : ℚ) : Mat4 := ⟨1,0,0,x, 0,1,0,y, 0,0,1,z, 0,0,0,1⟩

/-- transforms.py `scaling`. -/
def scalingM (x y z : ℚ) : Mat4 := ⟨x,0,0,0, 0,y,0,0, 0,0,z,0, 0,0,0,1⟩

/-- Matrix.__mul__ applied to a Rayple: the 4×4 matrix times the 1×4 array
`(x, y, z, w)` with `w` the numeric kind tag.  All matrices applied to rays are
affine (bottom row `0 0 0 1`), which keeps the tag fixed, and `normal_at`
discards the tag of its intermediate product, so the tag is carried through
unchanged here. -/
def Mat4.apply (m : Mat4) (r : Rayple) : Rayple :=
  ⟨m.a00 * r.x + m.a01 * r.y + m.a02 * r.z + m.a03 * (r.w : ℚ),
   m.a10 * r.x + m.a11 * r.y + m.a12 * r.z + m.a13 * (r.w : ℚ),
   m.a20 * r.x + m.a21 * r.y + m.a22 * r.z + m.a23 * (r.w : ℚ),
   r.w⟩

/-- Matrix.transpose. -/
def Mat4.transpose (m : Mat4) : Mat4 :=
  ⟨m.a00, m.a10, m.a20, m.a30,
   m.a01, m.a11, m.a21, m.a31,
   m.a02, m.a12, m.a22, m.a32,
   m.a03, m.a13, m.a23, m.a33⟩

/-- Determinant of a 3×3 matrix given row-wise, helper for the 4×4 inverse. -/
def det3 (a b c d e f g h i : ℚ) : ℚ :=
  a * (e * i - f * h) - b * (d * i - f * g) + c * (d * h - e * g)

/-- Matrix determinant (cofactor expansion along the first row). -/
def Mat4.det (m : Mat4) : ℚ :=
  m.a00 * det3 m.a11 m.a12 m.a13 m.a21 m.a22 m.a23 m.a31 m.a32 m.a33
  - m.a01 * det3 m.a10 m.a12 m.a13 m.a20 m.a22 m.a23 m.a30 m.a32 m.a33
  + m.a02 * det3 m.a10 m.a11 m.a13 m.a20 m.a21 m.a23 m.a30 m.a31 m.a33
  - m.a03 * det3 m.a10 m.a11 m.a12 m.a20 m.a21 m.a22 m.a30 m.a31 m.a32

/-- Matrix.inv (`np.linalg.inv`): for an invertible matrix the inverse equals
the transposed cofactor matrix divided by the determinant, which is the exact
value the NumPy routine computes in floats. -/
def Mat4.inv (m : Mat4) : Mat4 :=
  let d := m.det
  ⟨(det3 m.a11 m.a12 m.a13 m.a21 m.a22 m.a23 m.a31 m.a32 m.a33) / d,
   (-(det3 m.a01 m.a02 m.a03 m.a21 m.a22 m.a23 m.a31 m.a32 m.a33)) / d,
   (det3 m.a01 m.a02 m.a03 m.a11 m.a12 m.a13 m.a31 m.a32 m.a33) / d,
   (-(det3 m.a01 m.a02 m.a03 m.a11 m.a12 m.a13 m.a21 m.a22 m.a23)) / d,
   (-(det3 m.a10 m.a12 m.a13 m.a20 m.a22 m.a23 m.a30 m.a32 m.a33)) / d,
   (det3 m.a00 m.a02 m.a03 m.a20 m.a22 m.a23 m.a30 m.a32 m.a33) / d,
   (-(det3 m.a00 m.a02 m.a03 m.a10 m.a12 m.a13 m.a30 m.a32 m.a33)) / d,
   (det3 m.a00 m.a02 m.a03 m.a10 m.a12 m.a13 m.a20 m.a22 m.a23) / d,
   (det3 m.a10 m.a11 m.a13 m.a20 m.a21 m.a23 m.a30 m.a31 m.a33) / d,
   (-(det3 m.a00 m.a01 m.a03 m.a20 m.a21 m.a23 m.a30 m.a31 m.a33)) / d,
   (det3 m.a00 m.a01 m.a03 m.a10 m.a11 m.a13 m.a30 m.a31 m.a33) / d,
   (-(det3 m.a00 m.a01 m.a03 m.a10 m.a11 m.a13 m.a20 m.a21 m.a23)) / d,
   (-(det3 m.a10 m.a11 m.a12 m.a20 m.a21 m.a22 m.a30 m.a31 m.a32)) / d,
   (det3 m.a00 m.a01 m.a02 m.a20 m.a21 m.a22 m.a30 m.a31 m.a32) / d,
   (-(det3 m.a00 m.a01 m.a02 m.a10 m.a11 m.a12 m.a30 m.a31 m.a32)) / d,
   (det3 m.a00 m.a01 m.a02 m.a10 m.a11 m.a12 m.a20 m.a21 m.a22) / d⟩

/-- Ray (rays.py): origin point and direction vector. -/
structure RayM where
  origin : Rayple
  direction : Rayple
deriving DecidableEq, Repr

/-- Ray.position: `origin + direction·t`. -/
def RayM.position (r : RayM) (t : ℚ) : Rayple := r.origin.add (r.direction.smul t)

/-- Ray.transform: apply the matrix to both origin and direction. -/
def RayM.transformM (r : RayM) (m : Mat4) : RayM := ⟨m.apply r.origin, m.apply r.direction⟩

/-- Pattern variants (patterns.py): Stripe, Gradient, Ring, Checker. -/
inductive PatternKind
  | stripe
  | gradient
  | ring
  | checker
deriving DecidableEq, Repr

/-- Pattern (patterns.py): two colors and a pattern-space transform. -/
structure PatternM where
  kind : PatternKind
  a : Rayple
  b : Rayple
  transform : Mat4
deriving DecidableEq, Repr

/-- Pattern.at_point dispatched over the variants; `math.floor` is the integer
floor and Python's `%` on ints matches `Int.emod` for a positive modulus. -/
def PatternM.atPoint (sq : ℚ → ℚ) (p : PatternM) (pt : Rayple) : Rayple :=
  match p.kind with
  | .stripe => if (⌊pt.x⌋ : ℤ) % 2 = 0 then p.a else p.b
  | .gradient => p.a.add ((p.b.sub p.a).smul (pt.x - (⌊pt.x⌋ : ℤ)))
  | .ring => if (⌊sq (pt.x ^ 2 + pt.z ^ 2)⌋ : ℤ) % 2 = 0 then p.a else p.b
  | .checker => if ((⌊pt.x⌋ + ⌊pt.y⌋ + ⌊pt.z⌋ : ℤ)) % 2 = 0 then p.a else p.b

/-- Material (materials.py): Phong coefficients and the optional pattern.
The exponent `shininess` is modelled as a natural number (the repository only
uses integer shininess values; Python would accept floats). -/
structure MaterialM where
  color : Rayple
  pattern : Option PatternM
  ambient : ℚ
  diffuse : ℚ
  specular : ℚ
  shininess : ℕ
  reflective : ℚ
  transparency : ℚ
  refractive_index : ℚ
deriving DecidableEq, Repr

/-- Default Material() values. -/
def defaultMaterialM : MaterialM :=
  { color := WHITE, pattern := none, ambient := 1/10, diffuse := 9/10, specular := 9/10,
    shininess := 200, reflective := 0, transparency := 0, refractive_index := 1 }

/-- Common Shape fields (shapes.py `Shape`): transform and material.  Python
shapes compare by object identity; the model gives every shape a distinct
`sid`, making structural equality play the role of identity.  The `parent`
back-reference is represented, where needed, by an explicit ancestor list. -/
structure ShapeData where
  sid : ℕ
  transform : Mat4
  material : MaterialM
deriving DecidableEq, Repr

/-- The Shape variants of shapes.py as a closed tree (Group children are a list,
standing in for Python's set of children). -/
inductive ShapeT
  | sphere (d : ShapeData)
  | plane (d : ShapeData)
  | cube (d : ShapeData)
  | cylinder (d : ShapeData) (minimum maximum : ℚ) (closed : Bool)
  | cone (d : ShapeData) (minimum maximum : ℚ) (closed : Bool)
  | group (d : ShapeData) (children : List ShapeT)

mutual

/-- Boolean structural equality on shapes (the nested tree prevents automatic
derivation of decidable equality). -/
def ShapeT.beq : ShapeT → ShapeT → Bool
  | .sphere d, .sphere e => d = e
  | .plane d, .plane e => d = e
  | .cube d, .cube e => d = e
  | .cylinder d mn mx c, .cylinder e mn' mx' c' => d = e ∧ mn = mn' ∧ mx = mx' ∧ c = c'
  | .cone d mn mx c, .cone e mn' mx' c' => d = e ∧ mn = mn' ∧ mx = mx' ∧ c = c'
  | .group d cs, .group e ds => decide (d = e) && ShapeT.beqList cs ds
  | _, _ => false

/-- Boolean equality on lists of shapes. -/
def ShapeT.beqList : List ShapeT → List ShapeT → Bool
  | [], [] => true
  | a :: as, b :: bs => ShapeT.beq a b && ShapeT.beqList as bs
  | _, _ => false

end

mutual

theorem ShapeT.beq_iff : ∀ a b : ShapeT, ShapeT.beq a b = true ↔ a = b
  | .sphere d, .sphere e => by simp [ShapeT.beq]
  | .plane d, .plane e => by simp [ShapeT.beq]
  | .cube d, .cube e => by simp [ShapeT.beq]
  | .cylinder d mn mx c, .cylinder e mn' mx' c' => by simp [ShapeT.beq]
  | .cone d mn mx c, .cone e mn' mx' c' => by simp [ShapeT.beq]
  | .group d cs, .group e ds => by
      simp [ShapeT.beq, ShapeT.beqList_iff cs ds]
  | .sphere _, .plane _ => by simp [ShapeT.beq]
  | .sphere _, .cube _ => by simp [ShapeT.beq]
  | .sphere _, .cylinder .. => by simp [ShapeT.beq]
  | .sphere _, .cone .. => by simp [ShapeT.beq]
  | .sphere _, .group .. => by simp [ShapeT.beq]
  | .plane _, .sphere _ => by simp [ShapeT.beq]
  | .plane _, .cube _ => by simp [ShapeT.beq]
  | .plane _, .cylinder .. => by simp [ShapeT.beq]
  | .plane _, .cone .. => by simp [ShapeT.beq]
  | .plane _, .group .. => by simp [ShapeT.beq]
  | .cube _, .sphere _ => by simp [ShapeT.beq]
  | .cube _, .plane _ => by simp [ShapeT.beq]
  | .cube _, .cylinder .. => by simp [ShapeT.beq]
  | .cube _, .cone .. => by simp [ShapeT.beq]
  | .cube _, .group .. => by simp [ShapeT.beq]
  | .cylinder .., .sphere _ => by simp [ShapeT.beq]
  | .cylinder .., .plane _ => by simp [ShapeT.beq]
  | .cylinder .., .cube _ => by simp [ShapeT.beq]
  | .cylinder .., .cone .. => by simp [ShapeT.beq]
  | .cylinder .., .group .. => by simp [ShapeT.beq]
  | .cone .., .sphere _ => by simp [ShapeT.beq]
  | .cone .., .plane _ => by simp [ShapeT.beq]
  | .cone .., .cube _ => by simp [ShapeT.beq]
  | .cone .., .cylinder .. => by simp [ShapeT.beq]
  | .cone .., .group .. => by simp [ShapeT.beq]
  | .group .., .sphere _ => by simp [ShapeT.beq]
  | .group .., .plane _ => by simp [ShapeT.beq]
  | .group .., .cube _ => by simp [ShapeT.beq]
  | .group .., .cylinder .. => by simp [ShapeT.beq]
  | .group .., .cone .. => by simp [ShapeT.beq]

theorem ShapeT.beqList_iff : ∀ as bs : List ShapeT, ShapeT.beqList as bs = true ↔ as = bs
  | [], [] => by simp [ShapeT.beqList]
  | [], _ :: _ => by simp [ShapeT.beqList]
  | _ :: _, [] => by simp [ShapeT.beqList]
  | a :: as, b :: bs => by
      simp [ShapeT.beqList, ShapeT.beq_iff a b, ShapeT.beqList_iff as bs]

end

instance : DecidableEq ShapeT := fun a b => decidable_of_iff _ (ShapeT.beq_iff a b)

/-- Common field access for any shape variant. -/
def ShapeT.data : ShapeT → ShapeData
  | .sphere d => d
  | .plane d => d
  | .cube d => d
  | .cylinder d _ _ _ => d
  | .cone d _ _ _ => d
  | .group d _ => d

/-- Pattern.at_object: world point → object space via the object's inverse
transform → pattern space via the pattern's inverse transform → color. -/
def PatternM.atObject (sq : ℚ → ℚ) (p : PatternM) (objTransform : Mat4) (world_pt : Rayple) :
    Rayple :=
  p.atPoint sq (p.transform.inv.apply (objTransform.inv.apply world_pt))

/-- Intersection (intersections.py): time value, hit object and the barycentric
`u`, `v` (0 outside the triangle family).  Structural equality corresponds to
the frozen-dataclass equality of the source (with object identity captured by
distinct `sid`s). -/
structure Inter where
  t : ℚ
  obj : ShapeT
  u : ℚ
  v : ℚ
deriving DecidableEq

/-- Intersection with the default `u = v = 0`. -/
def mkInter (t : ℚ) (obj : ShapeT) : Inter := ⟨t, obj, 0, 0⟩

/-- Intersections.sort / list.sort: stable sort ascending by `t`. -/
def sortInters (l : List Inter) : List Inter := l.mergeSort (fun a b => decide (a.t ≤ b.t))

/-- Sortedness ascending by `t`, the invariant claimed for `Intersections`. -/
def SortedByT (l : List Inter) : Prop := l.Pairwise (fun a b => a.t ≤ b.t)

/-- Intersections.hit: the first entry with `t` strictly greater than 0. -/
def hitFn (xs : List Inter) : Option Inter := xs.find? (fun i => decide (0 < i.t))

instance (l : List Inter) : Decidable (SortedByT l) := List.instDecidablePairwise l

/-- Sphere._local_intersect: quadratic from `|O + tD|² = 1`; the result list is
passed through the sorting `Intersections` constructor. -/
def sphereLocalIntersect (sq : ℚ → ℚ) (s : ShapeT) (r : RayM) : List Inter :=
  let sphere_to_ray := r.origin.sub (pointR 0 0 0)
  let a := dotR r.direction r.direction
  let b := 2 * dotR r.direction sphere_to_ray
  let c := dotR sphere_to_ray sphere_to_ray - 1
  let discriminant := b ^ 2 - 4 * a * c
  if discriminant < 0 then sortInters []
  else sortInters
    [mkInter ((-b - sq discriminant) / (2 * a)) s, mkInter ((-b + sq discriminant) / (2 * a)) s]

/-- Plane._local_intersect: parallel/coplanar rays (`|direction.y| < EPSILON`)
miss; otherwise the single root `t = -origin.y / direction.y`. -/
def planeLocalIntersect (s : ShapeT) (r : RayM) : List Inter :=
  if |r.direction.y| < EPSILON then sortInters []
  else sortInters [mkInter (-r.origin.y / r.direction.y) s]

/-- Cube._check_axis: slab entry/exit times for one axis, with the near-zero
direction handled by the signed-infinity product (INF sentinel). -/
def cubeCheckAxis (origin direction : ℚ) : ℚ × ℚ :=
  let t_min_numerator := -1 - origin
  let t_max_numerator := 1 - origin
  let p :=
    if EPSILON ≤ |direction| then (t_min_numerator / direction, t_max_numerator / direction)
    else (t_min_numerator * INF, t_max_numerator * INF)
  if p.2 < p.1 then (p.2, p.1) else p

/-- Cube._local_intersect. -/
def cubeLocalIntersect (s : ShapeT) (r : RayM) : List Inter :=
  let xt := cubeCheckAxis r.origin.x r.direction.x
  let yt := cubeCheckAxis r.origin.y r.direction.y
  let zt := cubeCheckAxis r.origin.z r.direction.z
  let t_min := max xt.1 (max yt.1 zt.1)
  let t_max := min xt.2 (min yt.2 zt.2)
  if t_max < t_min then sortInters []
  else sortInters [mkInter t_min s, mkInter t_max s]

/-- Cylinder._check_cap: is the cap hit within radius 1 of the y-axis. -/
def cylinderCheckCap (r : RayM) (t : ℚ) : Bool :=
  let x := r.origin.x + t * r.direction.x
  let z := r.origin.z + t * r.direction.z
  decide (x ^ 2 + z ^ 2 ≤ 1)

/-- Cylinder._intersect_caps: for a closed cylinder, append the lower and upper
cap hits (in that order) to the running list; the divisions by `direction.y`
are unguarded in the source (total `ℚ` division here; the checked variant below
is used for the division-safety claim). -/
def cylinderIntersectCaps (s : ShapeT) (minimum maximum : ℚ) (closed : Bool) (r : RayM)
    (inters : List Inter) : List Inter :=
  if closed = false then inters
  else
    let t1 := (minimum - r.origin.y) / r.direction.y
    let inters1 := if cylinderCheckCap r t1 then inters ++ [mkInter t1 s] else inters
    let t2 := (maximum - r.origin.y) / r.direction.y
    if cylinderCheckCap r t2 then inters1 ++ [mkInter t2 s] else inters1

/-- Cylinder._local_intersect: `math.isclose(a, 0)` has `abs_tol = 0` and so
holds iff `a = 0` exactly; side roots are kept when their `y` lies strictly
between the bounds, and cap hits are appended afterwards without re-sorting. -/
def cylinderLocalIntersect (sq : ℚ → ℚ) (s : ShapeT) (minimum maximum : ℚ) (closed : Bool)
    (r : RayM) : List Inter :=
  let a := r.direction.x ^ 2 + r.direction.z ^ 2
  if a = 0 then cylinderIntersectCaps s minimum maximum closed r []
  else
    let b := 2 * r.origin.x * r.direction.x + 2 * r.origin.z * r.direction.z
    let c := r.origin.x ^ 2 + r.origin.z ^ 2 - 1
    let disc := b ^ 2 - 4 * a * c
    if disc < 0 then []
    else
      let t0 := (-b - sq disc) / (2 * a)
      let t1 := (-b + sq disc) / (2 * a)
      let p := if t1 < t0 then (t1, t0) else (t0, t1)
      let y0 := r.origin.y + p.1 * r.direction.y
      let i0 := if minimum < y0 ∧ y0 < maximum then [mkInter p.1 s] else []
      let y1 := r.origin.y + p.2 * r.direction.y
      let i1 := if minimum < y1 ∧ y1 < maximum then [mkInter p.2 s] else []
      cylinderIntersectCaps s minimum maximum closed r (i0 ++ i1)

/-- Cone._check_cap: radius bound `|cap_y|` instead of 1. -/
def coneCheckCap (r : RayM) (t cap_y : ℚ) : Bool :=
  let x := r.origin.x + t * r.direction.x
  let z := r.origin.z + t * r.direction.z
  decide (x ^ 2 + z ^ 2 ≤ |cap_y|)

/-- Cone._intersect_caps. -/
def coneIntersectCaps (s : ShapeT) (minimum maximum : ℚ) (closed : Bool) (r : RayM)
    (inters : List Inter) : List Inter :=
  if closed = false then inters
  else
    let t1 := (minimum - r.origin.y) / r.direction.y
    let inters1 := if coneCheckCap r t1 minimum then inters ++ [mkInter t1 s] else inters
    let t2 := (maximum - r.origin.y) / r.direction.y
    if coneCheckCap r t2 maximum then inters1 ++ [mkInter t2 s] else inters1

/-- Cone._local_intersect: when the leading coefficient vanishes but the linear
one does not, a single root `-c / (2b)` is produced; when both vanish the
source falls through to the quadratic with `a = 0` (a `ZeroDivisionError` in
Python, junk-zero division here; no claim touches that path). -/
def coneLocalIntersect (sq : ℚ → ℚ) (s : ShapeT) (minimum maximum : ℚ) (closed : Bool)
    (r : RayM) : List Inter :=
  let a := r.direction.x ^ 2 - r.direction.y ^ 2 + r.direction.z ^ 2
  let b := 2 * r.origin.x * r.direction.x - 2 * r.origin.y * r.direction.y
    + 2 * r.origin.z * r.direction.z
  let c := r.origin.x ^ 2 - r.origin.y ^ 2 + r.origin.z ^ 2
  if a = 0 ∧ ¬b = 0 then
    coneIntersectCaps s minimum maximum closed r [mkInter (-c / (2 * b)) s]
  else
    let disc := b ^ 2 - 4 * a * c
    if disc < 0 then []
    else
      let t0 := (-b - sq disc) / (2 * a)
      let t1 := (-b + sq disc) / (2 * a)
      let p := if t1 < t0 then (t1, t0) else (t0, t1)
      let y0 := r.origin.y + p.1 * r.direction.y
      let i0 := if minimum < y0 ∧ y0 < maximum then [mkInter p.1 s] else []
      let y1 := r.origin.y + p.2 * r.direction.y
      let i1 := if minimum < y1 ∧ y1 < maximum then [mkInter p.2 s] else []
      coneIntersectCaps s minimum maximum closed r (i0 ++ i1)

/-- Shape.intersect dispatched over the variants: the incoming ray is first
transformed by the inverse of the shape's own transform, then handed to the
shape-specific local routine.  The Group case is modelled from the spec: a
Group's local intersection intersects every child with the group-local ray
(each child then applying its own transform on top, recursively), concatenates
the results and returns them sorted by `t` (§4.2).  In shapes.py the body of
`Group._local_intersect` is a bare ellipsis (only the declaration is present);
the behavior here follows the spec, which matches the repository's tests. -/
def shapeIntersect (sq : ℚ → ℚ) : ShapeT → RayM → List Inter
  | ShapeT.sphere d, r => sphereLocalIntersect sq (.sphere d) (r.transformM d.transform.inv)
  | ShapeT.plane d, r => planeLocalIntersect (.plane d) (r.transformM d.transform.inv)
  | ShapeT.cube d, r => cubeLocalIntersect (.cube d) (r.transformM d.transform.inv)
  | ShapeT.cylinder d mn mx cl, r =>
      cylinderLocalIntersect sq (.cylinder d mn mx cl) mn mx cl (r.transformM d.transform.inv)
  | ShapeT.cone d mn mx cl, r =>
      coneLocalIntersect sq (.cone d mn mx cl) mn mx cl (r.transformM d.transform.inv)
  | ShapeT.group d children, r =>
      let tr := r.transformM d.transform.inv
      sortInters ((children.attach.map (fun c => shapeIntersect sq c.val tr)).flatten)
decreasing_by
  simp_wf
  have := List.sizeOf_lt_of_mem c.property
  omega

/-- Shape._local_normal_at dispatched over the variants (the `sq` parameter is
used by the Cone case).  The Group body in shapes.py is a bare ellipsis and is
never reached by the claims; it is modelled as the zero vector. -/
def ShapeT.localNormalAt (sq : ℚ → ℚ) : ShapeT → Rayple → Rayple
  | .sphere _, p => p.sub (pointR 0 0 0)
  | .plane _, _ => vectorR 0 1 0
  | .cube _, p =>
      let m0 := (|p.x|, 0)
      let m1 := if |p.y| > m0.1 then (|p.y|, 1) else m0
      let m2 := if |p.z| > m1.1 then (|p.z|, 2) else m1
      if m2.2 = 0 then vectorR p.x 0 0
      else if m2.2 = 1 then vectorR 0 p.y 0
      else vectorR 0 0 p.z
  | .cylinder _ mn mx _, p =>
      let dist := p.x ^ 2 + p.z ^ 2
      if dist < 1 ∧ p.y ≥ mx - EPSILON then vectorR 0 1 0
      else if dist < 1 ∧ p.y ≤ mn + EPSILON then vectorR 0 (-1) 0
      else vectorR p.x 0 p.z
  | .cone _ mn mx _, p =>
      let dist := p.x ^ 2 + p.z ^ 2
      if dist < |p.y| ∧ p.y ≥ mx - EPSILON then vectorR 0 1 0
      else if dist < |p.y| ∧ p.y ≤ mn + EPSILON then vectorR 0 (-1) 0
      else
        let norm_y := if p.y > 0 then -(sq dist) else sq dist
        vectorR p.x norm_y p.z
  | .group _ _, _ => vectorR 0 0 0

/-- Shape.normal_at as written in shapes.py: only the shape's own transform is
used (no ancestor chain); the world normal is rebuilt as a pure vector and
renormalized.  The point-kind guard of the source is a precondition met at all
call sites. -/
def normalAtSrc (sq : ℚ → ℚ) (s : ShapeT) (query : Rayple) : Rayple :=
  let local_point := s.data.transform.inv.apply query
  let local_normal := s.localNormalAt sq local_point
  let world_normal := (s.data.transform.inv.transpose.apply local_normal).toVector
  world_normal.normalize sq

/-- Modelled from the spec: `world_to_object` walks from the outermost ancestor
inward, applying each ancestor's inverse transform, then the shape's own
inverse (§4.2).  The method is exercised by the repository's tests but is not
present in shapes.py; `ancestors` lists the ancestor transforms
outermost-first. -/
def worldToObject (ancestors : List Mat4) (own : Mat4) (p : Rayple) : Rayple :=
  own.inv.apply (ancestors.foldl (fun q m => m.inv.apply q) p)

/-- Modelled from the spec: `normal_to_world` applies the shape's
inverse-transpose, renormalizes as a pure vector, then repeats up through each
ancestor (§4.2); missing from shapes.py like `world_to_object`. -/
def normalToWorld (sq : ℚ → ℚ) (ancestors : List Mat4) (own : Mat4) (v : Rayple) : Rayple :=
  ancestors.foldr (fun m w => ((m.inv.transpose.apply w).toVector).normalize sq)
    (((own.inv.transpose.apply v).toVector).normalize sq)

/-- Modelled from the spec: `normal_at` for a nested shape converts the query
point through the full ancestor chain, takes the local normal there, and
converts it back through `normal_to_world` (§4.2). -/
def chainNormalAt (sq : ℚ → ℚ) (ancestors : List Mat4) (s : ShapeT) (query : Rayple) : Rayple :=
  let local_point := worldToObject ancestors s.data.transform query
  let local_normal := s.localNormalAt sq local_point
  normalToWorld sq ancestors s.data.transform local_normal

/-- CSG operations (csg.py `Operation`). -/
inductive OperationM
  | DIFFERENCE
  | INTERSECTION
  | UNION
deriving DecidableEq, Repr

/-- CSG._is_inter_allowed: the admission rule evaluated at the current
`in_left`/`in_right` flags (the enum match is exhaustive, so the trailing
`return False` of the source is unreachable). -/
def isInterAllowed (op : OperationM) (left_hit in_left in_right : Bool) : Bool :=
  match op with
  | .UNION => (left_hit && !in_right) || (!left_hit && !in_left)
  | .INTERSECTION => (left_hit && in_right) || (!left_hit && in_left)
  | .DIFFERENCE => (left_hit && !in_right) || (!left_hit && in_left)

/-- CSG._filter_intersections sweep with explicit flag state.  The left-side
membership test (`check_includes(self.left_shape, inter.obj)`) is abstracted as
the predicate `isLeft`, since the source's queue-based check iterates a Python
set and is otherwise order-dependent. -/
def filterIntersectionsGo (op : OperationM) (isLeft : Inter → Bool) :
    Bool → Bool → List Inter → List Inter
  | _, _, [] => []
  | in_left, in_right, i :: rest =>
      let left_hit := isLeft i
      (if isInterAllowed op left_hit in_left in_right then [i] else []) ++
        filterIntersectionsGo op isLeft
          (if left_hit then !in_left else in_left)
          (if left_hit then in_right else !in_right) rest

/-- CSG._filter_intersections: the sweep started with both flags false. -/
def filterIntersections (op : OperationM) (isLeft : Inter → Bool) (inters : List Inter) :
    List Inter :=
  filterIntersectionsGo op isLeft false false inters

/-- Transcribed from the spec's admission truth table (§4.3): Union keeps a
left hit when not `in_right` and a right hit when not `in_left`; Intersection
keeps a left hit when `in_right` and a right hit when `in_left`; Difference
keeps a left hit when not `in_right` and a right hit when `in_left`. -/
def specCsgRule (op : OperationM) (hit_is_left in_left in_right : Bool) : Bool :=
  match op with
  | .UNION => (hit_is_left && !in_right) || (!hit_is_left && !in_left)
  | .INTERSECTION => (hit_is_left && in_right) || (!hit_is_left && in_left)
  | .DIFFERENCE => (hit_is_left && !in_right) || (!hit_is_left && in_left)

/-- Parity of left-side crossings over a prefix: the value of `in_left` after
sweeping the prefix (`in_left` starts false and toggles on each left hit). -/
def inLeftAfter (isLeft : Inter → Bool) (l : List Inter) : Bool :=
  l.foldr (fun i b => xor (isLeft i) b) false

/-- Parity of right-side crossings over a prefix. -/
def inRightAfter (isLeft : Inter → Bool) (l : List Inter) : Bool :=
  l.foldr (fun i b => xor (!isLeft i) b) false

/-- Python `list.remove`: drop the first occurrence, or fail (`ValueError`)
when the element is absent. -/
def removeFirst : List ShapeT → ShapeT → Option (List ShapeT)
  | [], _ => none
  | c :: rest, s => if c = s then some rest else (removeFirst rest s).map (c :: ·)

/-- The container-stack toggle of `_calc_refractive_indices`: remove the shape
if present (an exit), else append it (an entry). -/
def toggleContainer (containers : List ShapeT) (s : ShapeT) : List ShapeT :=
  match removeFirst containers s with
  | some rest => rest
  | none => containers ++ [s]

/-- Refractive index of the top of the container stack (`containers[-1]`), or
1 when the stack is empty. -/
def containerTop (containers : List ShapeT) : ℚ :=
  match containers.getLast? with
  | some s => s.data.material.refractive_index
  | none => 1

/-- The walk of `_calc_refractive_indices`: at the target intersection `n1` is
read before the toggle and `n2` after it, and the walk stops; if the target is
never found the Python source falls off the loop and crashes on the unbound
`n1`/`n2` (modelled as `none`). -/
def calcRefractiveIndicesGo (inter : Inter) : List ShapeT → List Inter → Option (ℚ × ℚ)
  | _, [] => none
  | containers, i :: rest =>
      let containers' := toggleContainer containers i.obj
      if i = inter then some (containerTop containers, containerTop containers')
      else calcRefractiveIndicesGo inter containers' rest

/-- intersections.py `_calc_refractive_indices`. -/
def calcRefractiveIndices (inter : Inter) (all_inters : List Inter) : Option (ℚ × ℚ) :=
  calcRefractiveIndicesGo inter [] all_inters

/-- Comps (intersections.py): the precomputed shading context, with the
post-init `over_point`/`under_point` nudges included. -/
structure Comps where
  t : ℚ
  obj : ShapeT
  point : Rayple
  eye_v : Rayple
  normal : Rayple
  inside : Bool
  reflect_v : Rayple
  n1 : ℚ
  n2 : ℚ
  over_point : Rayple
  under_point : Rayple
deriving DecidableEq

/-- intersections.py `prepare_computations`: when no full sequence is passed,
the sequence is seeded with the lone intersection.  The refractive-index walk
always finds the target at the source's call sites, so its `Option` is
defaulted to `(1, 1)`. -/
def prepareComputations (sq : ℚ → ℚ) (inter : Inter) (r : RayM)
    (all_inters : Option (List Inter)) : Comps :=
  let all := all_inters.getD [inter]
  let pt := r.position inter.t
  let eye_v := r.direction.neg
  let normal0 := normalAtSrc sq inter.obj pt
  let flipped := if dotR normal0 eye_v < 0 then (true, normal0.neg) else (false, normal0)
  let reflect_v := r.direction.reflect flipped.2
  let ns := (calcRefractiveIndices inter all).getD (1, 1)
  { t := inter.t, obj := inter.obj, point := pt, eye_v := eye_v, normal := flipped.2,
    inside := flipped.1, reflect_v := reflect_v, n1 := ns.1, n2 := ns.2,
    over_point := pt.add (flipped.2.smul EPSILON),
    under_point := pt.sub (flipped.2.smul EPSILON) }

/-- PointLight (lights.py). -/
structure PointLightM where
  position : Rayple
  intensity : Rayple
deriving DecidableEq

/-- World (world.py): the single light and the flat top-level object list. -/
structure WorldM where
  light : PointLightM
  objects : List ShapeT
deriving DecidableEq

/-- World.intersect_world: intersect every top-level object, concatenate, and
sort by `t`. -/
def intersectWorld (sq : ℚ → ℚ) (w : WorldM) (r : RayM) : List Inter :=
  sortInters ((w.objects.map (fun o => shapeIntersect sq o r)).flatten)

/-- lighting exactly as written in lights.py: Phong ambient/diffuse/specular
from the material's flat color, with no `in_shadow` or `obj`/pattern input
(the kind guards of the source are preconditions met at the call sites).
Note `-light_vec.reflect(normal)` parses as the negation of the reflection. -/
def lightingSrc (sq : ℚ → ℚ) (material : MaterialM) (light : PointLightM)
    (surf_pos eye_vec normal : Rayple) : Rayple :=
  let effective_color := material.color.hadamard light.intensity
  let ambient := effective_color.smul material.ambient
  let light_vec := (light.position.sub surf_pos).normalize sq
  let light_dot_normal := dotR light_vec normal
  let ds :=
    if light_dot_normal < 0 then (BLACK, BLACK)
    else
      let diffuse := (effective_color.smul material.diffuse).smul light_dot_normal
      let reflect_vec := (light_vec.reflect normal).neg
      let reflect_dot_eye := dotR reflect_vec eye_vec
      let specular :=
        if reflect_dot_eye ≤ 0 then BLACK
        else light.intensity.smul (material.specular * reflect_dot_eye ^ material.shininess)
      (diffuse, specular)
  (ambient.add ds.1).add ds.2

/-- Modelled from the spec: the full Phong `lighting` with pattern resolution
through the object's transform and the `in_shadow` early return of the ambient
term alone (§4.6).  The lights.py in the source tree predates shadow and
pattern support (its callers in world.py and the repository's own tests pass
`obj` and `in_shadow`); the world pipeline below uses this spec version. -/
def specLighting (sq : ℚ → ℚ) (material : MaterialM) (obj : ShapeT) (light : PointLightM)
    (surf_pos eye_v normal : Rayple) (in_shadow : Bool) : Rayple :=
  let base :=
    match material.pattern with
    | some p => p.atObject sq obj.data.transform surf_pos
    | none => material.color
  let effective_color := base.hadamard light.intensity
  let ambient := effective_color.smul material.ambient
  if in_shadow then ambient
  else
    let light_vec := (light.position.sub surf_pos).normalize sq
    let light_dot_normal := dotR light_vec normal
    let ds :=
      if light_dot_normal < 0 then (BLACK, BLACK)
      else
        let diffuse := (effective_color.smul material.diffuse).smul light_dot_normal
        let reflect_vec := (light_vec.neg).reflect normal
        let reflect_dot_eye := dotR reflect_vec eye_v
        let specular :=
          if reflect_dot_eye ≤ 0 then BLACK
          else light.intensity.smul (material.specular * reflect_dot_eye ^ material.shininess)
        (diffuse, specular)
    (ambient.add ds.1).add ds.2

/-- World.is_shadowed: cast a ray from the point toward the light and report a
positive hit closer than the light. -/
def isShadowed (sq : ℚ → ℚ) (w : WorldM) (pt : Rayple) : Bool :=
  let pt_v := w.light.position.sub pt
  let pt_dist := sq pt_v.mag2
  let pt_dir := pt_v.normalize sq
  match hitFn (intersectWorld sq w ⟨pt, pt_dir⟩) with
  | some h => decide (h.t < pt_dist)
  | none => false

mutual

/-- World.color_at: no positive hit gives black; otherwise the shading context
is built from the hit and the ray alone (`prepare_computations(hit, r)`, no
`all_inters` argument) and handed to `_shade_hit` with the same budget. -/
def colorAt (sq : ℚ → ℚ) (w : WorldM) (r : RayM) (remaining : ℤ) : Rayple :=
  match hitFn (intersectWorld sq w r) with
  | none => BLACK
  | some hit => shadeHit sq w (prepareComputations sq hit r none) remaining
termination_by remaining.toNat * 3 + 2
decreasing_by simp_wf

/-- World._shade_hit: Phong surface term (shadow-tested at `over_point`) plus
the reflected and refracted contributions. -/
def shadeHit (sq : ℚ → ℚ) (w : WorldM) (comps : Comps) (remaining : ℤ) : Rayple :=
  let shadowed := isShadowed sq w comps.over_point
  let surface := specLighting sq comps.obj.data.material comps.obj w.light comps.point
    comps.eye_v comps.normal shadowed
  let reflected := reflectedColor sq w comps remaining
  let refracted := refractedColor sq w comps remaining
  (surface.add reflected).add refracted
termination_by remaining.toNat * 3 + 1
decreasing_by all_goals simp_wf

/-- World.reflected_color: black for a non-reflective material or an exhausted
budget; otherwise recurse into `color_at` with `remaining - 1` from the
`over_point` along `reflect_v` and scale by the reflectivity. -/
def reflectedColor (sq : ℚ → ℚ) (w : WorldM) (comps : Comps) (remaining : ℤ) : Rayple :=
  if comps.obj.data.material.reflective = 0 then BLACK
  else if h : remaining ≤ 0 then BLACK
  else
    (colorAt sq w ⟨comps.over_point, comps.reflect_v⟩ (remaining - 1)).smul
      comps.obj.data.material.reflective
termination_by remaining.toNat * 3
decreasing_by simp_wf; omega

/-- World.refracted_color: black for an opaque material, an exhausted budget,
or total internal reflection; otherwise recurse into `color_at` with
`remaining - 1` from the `under_point` along the refracted direction and scale
by the transparency. -/
def refractedColor (sq : ℚ → ℚ) (w : WorldM) (comps : Comps) (remaining : ℤ) : Rayple :=
  if comps.obj.data.material.transparency = 0 then BLACK
  else if h : remaining ≤ 0 then BLACK
  else
    let n_ratio := comps.n1 / comps.n2
    let cos_i := dotR comps.eye_v comps.normal
    let sin2_t := n_ratio ^ 2 * (1 - cos_i ^ 2)
    if 1 < sin2_t then BLACK
    else
      let cos_t := sq (1 - sin2_t)
      let direction := (comps.normal.smul (n_ratio * cos_i - cos_t)).sub
        (comps.eye_v.smul n_ratio)
      (colorAt sq w ⟨comps.under_point, direction⟩ (remaining - 1)).smul
        comps.obj.data.material.transparency
termination_by remaining.toNat * 3
decreasing_by simp_wf; omega

end

/-- Comps construction step of World.color_at (world.py lines 71-75): the hit of
the sorted world intersections, pushed through `prepare_computations(hit, r)`
with no `all_inters` argument. -/
def colorAtComps (sq : ℚ → ℚ) (w : WorldM) (r : RayM) : Option Comps :=
  (hitFn (intersectWorld sq w r)).map (fun h => prepareComputations sq h r none)

/-- Checked division: `none` exactly where Python float division raises
`ZeroDivisionError`. -/
def qdivChecked (a b : ℚ) : Option ℚ := if b = 0 then none else some (a / b)

/-- Cylinder._intersect_caps with its two divisions by `direction.y` checked;
everything else is as in `cylinderIntersectCaps`. -/
def cylinderIntersectCapsChecked (s : ShapeT) (minimum maximum : ℚ) (closed : Bool) (r : RayM)
    (inters : List Inter) : Option (List Inter) :=
  if closed = false then some inters
  else
    match qdivChecked (minimum - r.origin.y) r.direction.y with
    | none => none
    | some t1 =>
      let inters1 := if cylinderCheckCap r t1 then inters ++ [mkInter t1 s] else inters
      match qdivChecked (maximum - r.origin.y) r.direction.y with
      | none => none
      | some t2 => some (if cylinderCheckCap r t2 then inters1 ++ [mkInter t2 s] else inters1)

/-- Cylinder._local_intersect with the cap divisions checked (the side-root
divisions divide by `2a` in the branch where `a ≠ 0` and cannot raise). -/
def cylinderLocalIntersectChecked (sq : ℚ → ℚ) (s : ShapeT) (minimum maximum : ℚ)
    (closed : Bool) (r : RayM) : Option (List Inter) :=
  let a := r.direction.x ^ 2 + r.direction.z ^ 2
  if a = 0 then cylinderIntersectCapsChecked s minimum maximum closed r []
  else
    let b := 2 * r.origin.x * r.direction.x + 2 * r.origin.z * r.direction.z
    let c := r.origin.x ^ 2 + r.origin.z ^ 2 - 1
    let disc := b ^ 2 - 4 * a * c
    if disc < 0 then some []
    else
      let t0 := (-b - sq disc) / (2 * a)
      let t1 := (-b + sq disc) / (2 * a)
      let p := if t1 < t0 then (t1, t0) else (t0, t1)
      let y0 := r.origin.y + p.1 * r.direction.y
      let i0 := if minimum < y0 ∧ y0 < maximum then [mkInter p.1 s] else []
      let y1 := r.origin.y + p.2 * r.direction.y
      let i1 := if minimum < y1 ∧ y1 < maximum then [mkInter p.2 s] else []
      cylinderIntersectCapsChecked s minimum maximum closed r (i0 ++ i1)

/-- Cone._intersect_caps with its two divisions by `direction.y` checked. -/
def coneIntersectCapsChecked (s : ShapeT) (minimum maximum : ℚ) (closed : Bool) (r : RayM)
    (inters : List Inter) : Option (List Inter) :=
  if closed = false then some inters
  else
    match qdivChecked (minimum - r.origin.y) r.direction.y with
    | none => none
    | some t1 =>
      let inters1 := if coneCheckCap r t1 minimum then inters ++ [mkInter t1 s] else inters
      match qdivChecked (maximum - r.origin.y) r.direction.y with
      | none => none
      | some t2 => some (if coneCheckCap r t2 maximum then inters1 ++ [mkInter t2 s] else inters1)

/-- Cone._local_intersect with the cap divisions checked. -/
def coneLocalIntersectChecked (sq : ℚ → ℚ) (s : ShapeT) (minimum maximum : ℚ) (closed : Bool)
    (r : RayM) : Option (List Inter) :=
  let a := r.direction.x ^ 2 - r.direction.y ^ 2 + r.direction.z ^ 2
  let b := 2 * r.origin.x * r.direction.x - 2 * r.origin.y * r.direction.y
    + 2 * r.origin.z * r.direction.z
  let c := r.origin.x ^ 2 - r.origin.y ^ 2 + r.origin.z ^ 2
  if a = 0 ∧ ¬b = 0 then
    coneIntersectCapsChecked s minimum maximum closed r [mkInter (-c / (2 * b)) s]
  else
    let disc := b ^ 2 - 4 * a * c
    if disc < 0 then some []
    else
      let t0 := (-b - sq disc) / (2 * a)
      let t1 := (-b + sq disc) / (2 * a)
      let p := if t1 < t0 then (t1, t0) else (t0, t1)
      let y0 := r.origin.y + p.1 * r.direction.y
      let i0 := if minimum < y0 ∧ y0 < maximum then [mkInter p.1 s] else []
      let y1 := r.origin.y + p.2 * r.direction.y
      let i1 := if minimum < y1 ∧ y1 < maximum then [mkInter p.2 s] else []
      coneIntersectCapsChecked s minimum maximum closed r (i0 ++ i1)

unseal List.merge List.mergeSort shapeIntersect colorAt shadeHit reflectedColor refractedColor

/-- Glass-like material with the given refractive index (transparency 1). -/
def glassMaterial (ri : ℚ) : MaterialM :=
  { defaultMaterialM with transparency := 1, refractive_index := ri }

/-- Outer glass sphere of the refraction fixture (scaling 2, index 1.5). -/
def sphereA : ShapeT := .sphere ⟨0, scalingM 2 2 2, glassMaterial (3/2)⟩

/-- Middle glass sphere of the refraction fixture (shifted -0.25 z, index 2.0). -/
def sphereB : ShapeT := .sphere ⟨1, translationM 0 0 (-1/4), glassMaterial 2⟩

/-- Inner glass sphere of the refraction fixture (shifted +0.25 z, index 2.5). -/
def sphereC : ShapeT := .sphere ⟨2, translationM 0 0 (1/4), glassMaterial (5/2)⟩

/-- The sorted intersection sequence of the three-concentric-glass-spheres
scenario: t values 2, 2.75, 3.25, 4.75, 5.25, 6 on objects A, B, C, B, C, A. -/
def refrScenario : List Inter :=
  [mkInter 2 sphereA, mkInter (11/4) sphereB, mkInter (13/4) sphereC,
   mkInter (19/4) sphereB, mkInter (21/4) sphereC, mkInter 6 sphereA]

/-- Glass pane above the origin (index 1.5). -/
def paneA : ShapeT := .plane ⟨3, translationM 0 1 0, glassMaterial (3/2)⟩

/-- Glass pane below the origin (index 2.0). -/
def paneB : ShapeT := .plane ⟨4, translationM 0 (-1) 0, glassMaterial 2⟩

/-- World of the two panes, with a ray cast downward from between them (so the
ray starts inside pane A's half-space crossing: the sequence is
[(-1, paneA), (1, paneB)] and the hit is the paneB entry). -/
def panesWorld : WorldM := ⟨⟨pointR 0 0 0, WHITE⟩, [paneA, paneB]⟩

def panesRay : RayM := ⟨pointR 0 0 0, vectorR 0 (-1) 0⟩

/-- Closed truncated cylinder (bounds 1..2) used for the cap-ordering and
division-by-zero inputs. -/
def capCylinder : ShapeT := .cylinder ⟨9, matIdentity, defaultMaterialM⟩ 1 2 true

/-- Downward axial ray from above the closed cylinder: both hits are cap hits,
appended lower-cap-first as t = 2 then t = 1. -/
def capRay : RayM := ⟨pointR (3/10) 3 0, vectorR 0 (-1) 0⟩

/-- Fully reflective plane at y = -1. -/
def mirrorLower : ShapeT :=
  .plane ⟨20, translationM 0 (-1) 0, { defaultMaterialM with reflective := 1 }⟩

/-- Fully reflective plane at y = 1. -/
def mirrorUpper : ShapeT :=
  .plane ⟨21, translationM 0 1 0, { defaultMaterialM with reflective := 1 }⟩

/-- Two parallel fully reflective planes with the light between them: the
endless-reflection scene of the spec's termination property. -/
def mirrorWorld : WorldM := ⟨⟨pointR 0 0 0, colorR 1 1 1⟩, [mirrorLower, mirrorUpper]⟩

def mirrorRay : RayM := ⟨pointR 0 0 0, vectorR 0 1 0⟩

/-- First reflection ray in the mirror world: downward from just under the
upper plane (the hit's `over_point`). -/
def mirrorRay1 : RayM := ⟨pointR 0 (99999/100000) 0, vectorR 0 (-1) 0⟩

/-- Second reflection ray: upward from just above the lower plane; its own
reflection is `mirrorRay1` again, closing the bounce cycle. -/
def mirrorRay2 : RayM := ⟨pointR 0 (-(99999/100000)) 0, vectorR 0 1 0⟩

/-- Unit sphere nested (for the normal_at divergence) in a single group scaled
by (1, 2, 1); the sphere's own transform is the identity. -/
def nestedSphere : ShapeT := .sphere ⟨7, matIdentity, defaultMaterialM⟩

def nestedAncestors : List Mat4 := [scalingM 1 2 1]

/-- World-space surface point of the group-scaled sphere (local point
(3/5, 4/5, 0) pushed through the scaling). -/
def nestedQuery : Rayple := pointR (3/5) (8/5) 0

/-- Container stack after sweeping a prefix of intersections starting from the
empty stack (the state of `_calc_refractive_indices` just before an element). -/
def refrStack (pre : List Inter) : List ShapeT :=
  pre.foldl (fun cs i => toggleContainer cs i.obj) []

theorem sortInters_sorted (l : List Inter) : SortedByT (sortInters l) := by
  have h := List.sorted_mergeSort
    (fun a b c (hab : decide (a.t ≤ b.t) = true) (hbc : decide (b.t ≤ c.t) = true) => by
      simp only [decide_eq_true_eq] at *
      exact le_trans hab hbc)
    (fun (a b : Inter) => by
      simp only [Bool.or_eq_true, decide_eq_true_eq]
      exact le_total a.t b.t)
    l
  exact h.imp (fun hab => of_decide_eq_true hab)

theorem find?_split {α : Type} {p : α → Bool} :
    ∀ {xs : List α} {h : α}, xs.find? p = some h →
      ∃ pre post, xs = pre ++ h :: post ∧ ∀ i ∈ pre, p i = false
  | [], h, hfind => by simp [List.find?] at hfind
  | x :: rest, h, hfind => by
      by_cases hx : p x
      · refine ⟨[], rest, ?_, by simp⟩
        have : some x = some h := by simpa [List.find?_cons, hx] using hfind
        simp [Option.some.injEq] at this
        simp [this]
      · have hrest : rest.find? p = some h := by
          simpa [List.find?_cons, hx] using hfind
        obtain ⟨pre, post, heq, hpre⟩ := find?_split hrest
        refine ⟨x :: pre, post, by simp [heq], ?_⟩
        intro i hi
        rcases List.mem_cons.mp hi with rfl | hi
        · simpa using hx
        · exact hpre i hi

theorem filterGo_sublist (op : OperationM) (isLeft : Inter → Bool) :
    ∀ (xs : List Inter) (il ir : Bool),
      (filterIntersectionsGo op isLeft il ir xs).Sublist xs
  | [], _, _ => by simp [filterIntersectionsGo]
  | x :: rest, il, ir => by
      rw [filterIntersectionsGo]
      by_cases hk : isInterAllowed op (isLeft x) il ir
      · simpa [hk] using List.Sublist.cons₂ x (filterGo_sublist op isLeft rest _ _)
      · simpa [hk] using List.Sublist.cons x (filterGo_sublist op isLeft rest _ _)

theorem filterGo_char (op : OperationM) (isLeft : Inter → Bool) :
    ∀ (xs : List Inter) (il ir : Bool),
      filterIntersectionsGo op isLeft il ir xs =
        (List.range xs.length).filterMap (fun k =>
          match xs[k]? with
          | none => none
          | some i =>
              if isInterAllowed op (isLeft i)
                  (xor il (inLeftAfter isLeft (xs.take k)))
                  (xor ir (inRightAfter isLeft (xs.take k))) then some i else none)
  | [], il, ir => by simp [filterIntersectionsGo]
  | x :: rest, il, ir => by
      have bl : ∀ a b p : Bool, (xor (if a then !b else b) p) = xor b (xor a p) := by decide
      have br : ∀ a b p : Bool, (xor (if a then b else !b) p) = xor b (xor (!a) p) := by decide
      rw [filterIntersectionsGo, List.length_cons, List.range_succ_eq_map,
        List.filterMap_cons, List.filterMap_map,
        filterGo_char op isLeft rest (if isLeft x then !il else il)
          (if isLeft x then ir else !ir)]
      have harg :
          (fun k =>
            match rest[k]? with
            | none => none
            | some i =>
                if isInterAllowed op (isLeft i)
                    (xor (if isLeft x then !il else il) (inLeftAfter isLeft (rest.take k)))
                    (xor (if isLeft x then ir else !ir) (inRightAfter isLeft (rest.take k)))
                  then some i else none) =
          ((fun k =>
            match (x :: rest)[k]? with
            | none => none
            | some i =>
                if isInterAllowed op (isLeft i)
                    (xor il (inLeftAfter isLeft ((x :: rest).take k)))
                    (xor ir (inRightAfter isLeft ((x :: rest).take k)))
                  then some i else none) ∘ Nat.succ) := by
        funext k
        simp only [Function.comp_apply, List.getElem?_cons_succ, List.take_succ_cons,
          inLeftAfter, inRightAfter, List.foldr_cons, bl, br]
      rw [harg]
      by_cases hc : isInterAllowed op (isLeft x) il ir <;>
        simp [hc, inLeftAfter, inRightAfter]

theorem calcGo_split (inter : Inter) :
    ∀ (pre : List Inter) (cs : List ShapeT) (post : List Inter), inter ∉ pre →
      calcRefractiveIndicesGo inter cs (pre ++ inter :: post) =
        some (containerTop (pre.foldl (fun c i => toggleContainer c i.obj) cs),
          containerTop
            (toggleContainer (pre.foldl (fun c i => toggleContainer c i.obj) cs) inter.obj))
  | [], cs, post, _ => by simp [calcRefractiveIndicesGo]
  | p :: pre, cs, post, hmem => by
      have hne : ¬p = inter := by
        intro h
        exact hmem (by simp [h])
      have hmem' : inter ∉ pre := fun h => hmem (List.mem_cons_of_mem _ h)
      simpa [calcRefractiveIndicesGo, hne] using
        calcGo_split inter pre (toggleContainer cs p.obj) post hmem'

/-- C1: the CSG sweep admits each intersection exactly by the spec's truth
table, evaluated at the `in_left`/`in_right` flags as they stand before that
intersection's toggle: `_is_inter_allowed` agrees with the table on all 24
(operation, left_hit, in_left, in_right) combinations, and the filtered list
consists precisely of the entries whose admission rule holds at the parity of
the left/right crossings of their strict prefix. -/
theorem csg_filter_truth_table :
    (∀ (op : OperationM) (lh il ir : Bool), isInterAllowed op lh il ir = specCsgRule op lh il ir)
    ∧ ∀ (op : OperationM) (isLeft : Inter → Bool) (xs : List Inter),
        filterIntersections op isLeft xs =
          (List.range xs.length).filterMap (fun k =>
            match xs[k]? with
            | none => none
            | some i =>
                if isInterAllowed op (isLeft i)
                    (inLeftAfter isLeft (xs.take k))
                    (inRightAfter isLeft (xs.take k)) then some i else none) := by
  constructor
  · intro op lh il ir
    cases op <;> rfl
  · intro op isLeft xs
    have h := filterGo_char op isLeft xs false false
    simpa [filterIntersections] using h

/-- C2: the refractive-index walk reads `n1` from the stack top accumulated
over the prefix before the target (1 when empty), toggles the target object's
membership, reads `n2` the same way, and stops; on the three-concentric-glass-
spheres sequence it produces exactly the pairs (1, 1.5), (1.5, 2), (2, 2.5),
(2.5, 2.5), (2.5, 1.5), (1.5, 1). -/
theorem refractive_indices_walk :
    (∀ (inter : Inter) (pre post : List Inter), inter ∉ pre →
      calcRefractiveIndices inter (pre ++ inter :: post) =
        some (containerTop (refrStack pre),
          containerTop (toggleContainer (refrStack pre) inter.obj)))
    ∧ refrScenario.map (fun i => calcRefractiveIndices i refrScenario) =
        [some (1, 3/2), some (3/2, 2), some (2, 5/2), some (5/2, 5/2), some (5/2, 3/2),
          some (3/2, 1)] := by
  constructor
  · intro inter pre post hpre
    exact calcGo_split inter pre [] post hpre
  · decide

/-- Witness for C2 at the third intersection of the glass-sphere sequence. -/
theorem refractive_indices_walk_witness :
    calcRefractiveIndices (mkInter (13/4) sphereC) refrScenario = some (2, 5/2) := by
  have h := refractive_indices_walk.1 (mkInter (13/4) sphereC)
    [mkInter 2 sphereA, mkInter (11/4) sphereB]
    [mkInter (19/4) sphereB, mkInter (21/4) sphereC, mkInter 6 sphereA] (by decide)
  rw [show refrScenario =
    [mkInter 2 sphereA, mkInter (11/4) sphereB] ++ mkInter (13/4) sphereC ::
      [mkInter (19/4) sphereB, mkInter (21/4) sphereC, mkInter 6 sphereA] from rfl, h]
  decide

/-- C3: `hit` returns the first entry with strictly positive `t` (everything
before it is ≤ 0), is `none` exactly when every entry is ≤ 0, and under the
sorted-by-`t` invariant the returned entry has minimal `t` among the strictly
positive entries; duplicate `t` values need no special case. -/
theorem hit_first_positive (xs : List Inter) :
    (hitFn xs = none ↔ ∀ i ∈ xs, i.t ≤ 0)
    ∧ (∀ h, hitFn xs = some h →
        0 < h.t ∧ ∃ pre post, xs = pre ++ h :: post ∧ ∀ i ∈ pre, i.t ≤ 0)
    ∧ (SortedByT xs → ∀ h, hitFn xs = some h → ∀ i ∈ xs, 0 < i.t → h.t ≤ i.t) := by
  refine ⟨?_, ?_, ?_⟩
  · rw [hitFn, List.find?_eq_none]
    constructor
    · intro hf i hi
      have := hf i hi
      simpa using this
    · intro hf i hi
      simpa using hf i hi
  · intro h hfind
    have hpos : 0 < h.t := by
      have := List.find?_some hfind
      simpa using this
    refine ⟨hpos, ?_⟩
    obtain ⟨pre, post, heq, hpre⟩ := find?_split hfind
    refine ⟨pre, post, heq, fun i hi => ?_⟩
    have := hpre i hi
    simpa using this
  · intro hsort h hfind i hi hipos
    obtain ⟨pre, post, heq, hpre⟩ := find?_split hfind
    subst heq
    rcases List.mem_append.mp hi with hi | hi
    · exact absurd hipos (not_lt.mpr (by simpa using hpre i hi))
    · rcases List.mem_cons.mp hi with rfl | hi
      · exact le_refl _
      · have hp := List.pairwise_append.mp hsort
        have := (List.pairwise_cons.mp hp.2.1).1 i hi
        exact this

/-- Witness for C3 on a sequence with a duplicated positive `t`. -/
theorem hit_first_positive_witness :
    hitFn [mkInter (-2) sphereA, mkInter 1 sphereA, mkInter 1 sphereA] = some (mkInter 1 sphereA)
    ∧ 0 < (mkInter 1 sphereA).t
    ∧ (mkInter 1 sphereA).t ≤ (mkInter 1 sphereA).t := by
  have h := (hit_first_positive
    [mkInter (-2) sphereA, mkInter 1 sphereA, mkInter 1 sphereA]).2.2 (by decide)
    (mkInter 1 sphereA) (by decide) (mkInter 1 sphereA) (by decide) (by decide)
  exact ⟨by decide, by decide, h⟩

/-- Counterexample to C4: in the two-pane world the ray starts inside pane A's
crossing interval, so the full sorted sequence gives `n1 = 1.5` at the hit,
but `color_at` builds its context from the hit alone and gets `n1 = 1`. -/
theorem color_at_full_sequence_counterexample :
    (colorAtComps qsqrt panesWorld panesRay).map Comps.n1 = some 1
    ∧ ((hitFn (intersectWorld qsqrt panesWorld panesRay)).map (fun h =>
        (prepareComputations qsqrt h panesRay
          (some (intersectWorld qsqrt panesWorld panesRay))).n1)) = some (3/2)
    ∧ (1 : ℚ) ≠ 3/2 := by
  refine ⟨by decide, by decide, by norm_num⟩

/-- C4 amended: `color_at` returns black when there is no positive hit, and
otherwise delegates to `_shade_hit` on a context built from the hit alone
(`prepare_computations(hit, r)` with no sequence), whose `n1` is therefore
always 1 and whose `n2` is always the hit object's own refractive index. -/
theorem color_at_seeds_lone_hit (sq : ℚ → ℚ) (w : WorldM) (r : RayM) (remaining : ℤ) :
    (hitFn (intersectWorld sq w r) = none → colorAt sq w r remaining = BLACK)
    ∧ ∀ h, hitFn (intersectWorld sq w r) = some h →
        colorAt sq w r remaining = shadeHit sq w (prepareComputations sq h r none) remaining
        ∧ (prepareComputations sq h r none).n1 = 1
        ∧ (prepareComputations sq h r none).n2 = h.obj.data.material.refractive_index := by
  constructor
  · intro hn
    simp only [colorAt, hn]
  · intro h hh
    refine ⟨by simp only [colorAt, hh], ?_, ?_⟩
    · simp [prepareComputations, calcRefractiveIndices, calcRefractiveIndicesGo,
        toggleContainer, removeFirst, containerTop]
    · simp [prepareComputations, calcRefractiveIndices, calcRefractiveIndicesGo,
        toggleContainer, removeFirst, containerTop]

/-- Witness for the amended C4 in the two-pane world. -/
theorem color_at_seeds_lone_hit_witness :
    colorAt qsqrt panesWorld panesRay 5 =
      shadeHit qsqrt panesWorld (prepareComputations qsqrt (mkInter 1 paneB) panesRay none) 5
    ∧ (prepareComputations qsqrt (mkInter 1 paneB) panesRay none).n1 = 1
    ∧ (prepareComputations qsqrt (mkInter 1 paneB) panesRay none).n2 = 2 := by
  have h := (color_at_seeds_lone_hit qsqrt panesWorld panesRay 5).2 (mkInter 1 paneB) (by decide)
  refine ⟨h.1, h.2.1, ?_⟩
  rw [h.2.2]
  decide

/-- C5: the `lighting` of lights.py has no `in_shadow` input at all — at the
repository's own shadow-test configuration (default material, white light at
(0, 0, -10), surface at the origin facing the light) it returns the full Phong
sum 1.9-gray, not the ambient-only 0.1-gray the claim requires when shadowed
(its callers in world.py pass `in_shadow=`, which this signature rejects). -/
theorem lighting_lacks_shadow_flag :
    lightingSrc qsqrt defaultMaterialM ⟨pointR 0 0 (-10), WHITE⟩ (pointR 0 0 0)
        (vectorR 0 0 (-1)) (vectorR 0 0 (-1)) = colorR (19/10) (19/10) (19/10)
    ∧ colorR (19/10) (19/10) (19/10) ≠ colorR (1/10) (1/10) (1/10) := by
  exact ⟨by decide, by decide⟩

/-- C6: intersecting a Group transforms the incoming ray by the inverse of the
Group's own transform, intersects every child with that local ray (each child
applying its own transform on top inside `shapeIntersect`, recursively),
concatenates the children's intersections, and returns them sorted by `t`. -/
theorem group_intersect_traversal (sq : ℚ → ℚ) (d : ShapeData) (cs : List ShapeT) (r : RayM) :
    shapeIntersect sq (.group d cs) r =
      sortInters ((cs.map (fun c => shapeIntersect sq c (r.transformM d.transform.inv))).flatten)
    ∧ SortedByT (shapeIntersect sq (.group d cs) r) := by
  have hunf : shapeIntersect sq (.group d cs) r =
      sortInters ((cs.attach.map
        (fun c => shapeIntersect sq c.val (r.transformM d.transform.inv))).flatten) := by
    simp only [shapeIntersect]
  have hattach : (cs.attach.map
      (fun c => shapeIntersect sq c.val (r.transformM d.transform.inv))) =
      cs.map (fun c => shapeIntersect sq c (r.transformM d.transform.inv)) := by
    simp
  refine ⟨by rw [hunf, hattach], ?_⟩
  rw [hunf]
  exact sortInters_sorted _

/-- Counterexample to C8: the closed truncated cylinder hit by a downward
axial ray appends the lower cap (t = 2) before the upper cap (t = 1), so the
public `intersect` returns an unsorted sequence. -/
theorem intersections_sorted_counterexample :
    ¬ SortedByT (shapeIntersect qsqrt capCylinder capRay)
    ∧ (shapeIntersect qsqrt capCylinder capRay).map Inter.t = [2, 1] := by
  exact ⟨by decide, by decide⟩

/-- C8 amended: every public intersection sequence is sorted ascending by `t`
except those of closed cylinders and cones, whose cap hits are appended after
the side hits without re-sorting: sphere, plane, cube and (spec-modelled)
group output is sorted, open (`closed = false`) cylinders and cones are
sorted, `World.intersect_world` re-sorts and is always sorted, and the CSG
filter preserves sortedness of its input. -/
theorem intersections_sorted_amended (sq : ℚ → ℚ) :
    (∀ d r, SortedByT (shapeIntersect sq (.sphere d) r))
    ∧ (∀ d r, SortedByT (shapeIntersect sq (.plane d) r))
    ∧ (∀ d r, SortedByT (shapeIntersect sq (.cube d) r))
    ∧ (∀ d cs r, SortedByT (shapeIntersect sq (.group d cs) r))
    ∧ (∀ d mn mx r, SortedByT (shapeIntersect sq (.cylinder d mn mx false) r))
    ∧ (∀ d mn mx r, SortedByT (shapeIntersect sq (.cone d mn mx false) r))
    ∧ (∀ w r, SortedByT (intersectWorld sq w r))
    ∧ (∀ op isLeft xs, SortedByT xs → SortedByT (filterIntersections op isLeft xs)) := by
  have hpair : ∀ (s : ShapeT) (a b : ℚ), a ≤ b → SortedByT [mkInter a s, mkInter b s] := by
    intro s a b hab
    simp [SortedByT, mkInter, hab]
  have hsingle : ∀ (s : ShapeT) (a : ℚ), SortedByT [mkInter a s] := by
    intro s a
    simp [SortedByT]
  refine ⟨?_, ?_, ?_, ?_, ?_, ?_, ?_, ?_⟩
  · intro d r
    simp only [shapeIntersect, sphereLocalIntersect]
    split_ifs <;> exact sortInters_sorted _
  · intro d r
    simp only [shapeIntersect, planeLocalIntersect]
    split_ifs <;> exact sortInters_sorted _
  · intro d r
    simp only [shapeIntersect, cubeLocalIntersect]
    split_ifs <;> exact sortInters_sorted _
  · intro d cs r
    simp only [shapeIntersect]
    exact sortInters_sorted _
  · intro d mn mx r
    simp only [shapeIntersect, cylinderLocalIntersect, cylinderIntersectCaps, if_pos rfl]
    split_ifs <;>
      (try simp only [List.nil_append, List.append_nil]) <;>
      first
        | exact List.Pairwise.nil
        | exact hsingle _ _
        | (apply hpair; linarith)
  · intro d mn mx r
    simp only [shapeIntersect, coneLocalIntersect, coneIntersectCaps, if_pos rfl]
    split_ifs <;>
      (try simp only [List.nil_append, List.append_nil]) <;>
      first
        | exact List.Pairwise.nil
        | exact hsingle _ _
        | (apply hpair; linarith)
  · intro w r
    exact sortInters_sorted _
  · intro op isLeft xs hxs
    exact List.Pairwise.sublist (filterGo_sublist op isLeft xs false false) hxs

/-- Witness for the amended C8: the CSG filter keeps a concrete sorted list
sorted, and a concrete open cylinder result is sorted. -/
theorem intersections_sorted_amended_witness :
    SortedByT (filterIntersections .UNION (fun _ => true)
      [mkInter 1 sphereA, mkInter 2 sphereB])
    ∧ SortedByT (shapeIntersect qsqrt (.cylinder ⟨9, matIdentity, defaultMaterialM⟩ 1 2 false)
        ⟨pointR (3/10) 3 0, vectorR 0 (-1) 0⟩) := by
  exact ⟨(intersections_sorted_amended qsqrt).2.2.2.2.2.2.2 .UNION (fun _ => true)
    [mkInter 1 sphereA, mkInter 2 sphereB] (by decide),
    (intersections_sorted_amended qsqrt).2.2.2.2.1 ⟨9, matIdentity, defaultMaterialM⟩ 1 2
      ⟨pointR (3/10) 3 0, vectorR 0 (-1) 0⟩⟩

/-- C10: for every closed cylinder or cone there is a ray with non-zero
direction and zero y-component on which the local intersection reaches the
end-cap test and divides by `direction.y = 0` (a `ZeroDivisionError`); with
`direction.y ≠ 0` the cap computation's divisions are all defined, and with
`closed = false` the cap test returns its input without dividing at all. -/
theorem cap_division_by_zero (sq : ℚ → ℚ) :
    (∀ (d : ShapeData) (mn mx : ℚ), ∃ r : RayM, r.direction ≠ vectorR 0 0 0
      ∧ r.direction.y = 0
      ∧ cylinderLocalIntersectChecked sq (.cylinder d mn mx true) mn mx true r = none)
    ∧ (∀ (d : ShapeData) (mn mx : ℚ), ∃ r : RayM, r.direction ≠ vectorR 0 0 0
      ∧ r.direction.y = 0
      ∧ coneLocalIntersectChecked sq (.cone d mn mx true) mn mx true r = none)
    ∧ (∀ (s : ShapeT) (mn mx : ℚ) (cl : Bool) (r : RayM) (inters : List Inter),
        r.direction.y ≠ 0 → (cylinderIntersectCapsChecked s mn mx cl r inters).isSome)
    ∧ (∀ (s : ShapeT) (mn mx : ℚ) (cl : Bool) (r : RayM) (inters : List Inter),
        r.direction.y ≠ 0 → (coneIntersectCapsChecked s mn mx cl r inters).isSome)
    ∧ (∀ (s : ShapeT) (mn mx : ℚ) (r : RayM) (inters : List Inter),
        cylinderIntersectCapsChecked s mn mx false r inters = some inters)
    ∧ (∀ (s : ShapeT) (mn mx : ℚ) (r : RayM) (inters : List Inter),
        coneIntersectCapsChecked s mn mx false r inters = some inters) := by
  have hnone : ∀ (a : ℚ), qdivChecked a 0 = none := by
    intro a
    simp [qdivChecked]
  refine ⟨?_, ?_, ?_, ?_, ?_, ?_⟩
  · intro d mn mx
    refine ⟨⟨pointR 0 0 0, vectorR 1 0 0⟩, by decide, rfl, ?_⟩
    simp only [cylinderLocalIntersectChecked, cylinderIntersectCapsChecked]
    norm_num [pointR, vectorR, hnone]
  · intro d mn mx
    refine ⟨⟨pointR 0 0 0, vectorR 1 0 0⟩, by decide, rfl, ?_⟩
    simp only [coneLocalIntersectChecked, coneIntersectCapsChecked]
    norm_num [pointR, vectorR, hnone]
  · intro s mn mx cl r inters hy
    simp only [cylinderIntersectCapsChecked, qdivChecked, if_neg hy]
    split_ifs <;> simp
  · intro s mn mx cl r inters hy
    simp only [coneIntersectCapsChecked, qdivChecked, if_neg hy]
    split_ifs <;> simp
  · intro s mn mx r inters
    simp [cylinderIntersectCapsChecked]
  · intro s mn mx r inters
    simp [coneIntersectCapsChecked]

/-- Witness for C10: the closed cap cylinder with the downward ray divides
safely (its direction.y is non-zero), and the open variant never divides. -/
theorem cap_division_by_zero_witness :
    (cylinderIntersectCapsChecked capCylinder 1 2 true capRay []).isSome
    ∧ coneIntersectCapsChecked capCylinder 1 2 false capRay [] = some [] := by
  exact ⟨(cap_division_by_zero qsqrt).2.2.1 capCylinder 1 2 true capRay [] (by decide),
    (cap_division_by_zero qsqrt).2.2.2.2.2 capCylinder 1 2 capRay []⟩

/-- C7: `normal_at` as written in shapes.py uses only the shape's own
transform, not the ancestor chain: for the unit sphere nested in a group
scaled by (1, 2, 1), queried at the world surface point (3/5, 8/5, 0), its
normal's direction differs from the spec's chain conversion
(`world_to_object` / `normal_to_world`) for every square-root function that is
positive on positive inputs — the cross products of the two unit vectors'
components disagree (source direction ∝ (3, 8, 0), chain direction ∝ (3, 2, 0)). -/
theorem normal_at_ignores_ancestors (sq : ℚ → ℚ) (hsq : ∀ q : ℚ, 0 < q → 0 < sq q) :
    (normalAtSrc sq nestedSphere nestedQuery).x *
      (chainNormalAt sq nestedAncestors nestedSphere nestedQuery).y ≠
    (normalAtSrc sq nestedSphere nestedQuery).y *
      (chainNormalAt sq nestedAncestors nestedSphere nestedQuery).x := by
  have h1 : 0 < sq 1 := hsq 1 one_pos
  have h73 : 0 < sq ((73 : ℚ)/25) := hsq _ (by norm_num)
  have esrc : normalAtSrc sq nestedSphere nestedQuery
      = (vectorR (3/5) (8/5) 0).normalize sq := by
    show ((nestedSphere.data.transform.inv.transpose.apply
        (nestedSphere.localNormalAt sq
          (nestedSphere.data.transform.inv.apply nestedQuery))).toVector).normalize sq = _
    congr 1
    rw [show nestedSphere.localNormalAt sq (nestedSphere.data.transform.inv.apply nestedQuery)
        = (nestedSphere.data.transform.inv.apply nestedQuery).sub (pointR 0 0 0) from rfl]
    decide
  have ebase : ((nestedSphere.data.transform.inv.transpose.apply
      (nestedSphere.localNormalAt sq
        (worldToObject nestedAncestors nestedSphere.data.transform nestedQuery))).toVector)
      = vectorR (3/5) (4/5) 0 := by
    rw [show nestedSphere.localNormalAt sq
        (worldToObject nestedAncestors nestedSphere.data.transform nestedQuery)
        = (worldToObject nestedAncestors nestedSphere.data.transform nestedQuery).sub
          (pointR 0 0 0) from rfl]
    decide
  have echain : chainNormalAt sq nestedAncestors nestedSphere nestedQuery
      = (((scalingM 1 2 1).inv.transpose.apply
          ((vectorR (3/5) (4/5) 0).normalize sq)).toVector).normalize sq := by
    show (((scalingM 1 2 1).inv.transpose.apply
        (((nestedSphere.data.transform.inv.transpose.apply
          (nestedSphere.localNormalAt sq
            (worldToObject nestedAncestors nestedSphere.data.transform
              nestedQuery))).toVector).normalize sq)).toVector).normalize sq = _
    rw [ebase]
  have hvec : ((scalingM 1 2 1).inv.transpose.apply
      ((vectorR (3/5) (4/5) 0).normalize sq)).toVector
      = vectorR ((3/5) / sq 1) ((2/5) / sq 1) 0 := by
    simp only [scalingM, Mat4.inv, Mat4.det, det3, Mat4.transpose, Mat4.apply, Rayple.toVector,
      Rayple.normalize, Rayple.mag2, vectorR]
    norm_num
    ring
  rw [esrc, echain, hvec]
  simp only [Rayple.normalize, Rayple.mag2, vectorR]
  rw [show (3/5 : ℚ) ^ 2 + (8/5) ^ 2 + 0 ^ 2 = 73/25 by norm_num,
    show ((3/5) / sq 1 : ℚ) ^ 2 + ((2/5) / sq 1) ^ 2 + 0 ^ 2
      = ((3/5) / sq 1) ^ 2 + ((2/5) / sq 1) ^ 2 by ring]
  set s1 := sq 1 with hs1def
  set sa := sq ((73 : ℚ)/25) with hsadef
  set sm := sq (((3/5) / s1) ^ 2 + ((2/5) / s1) ^ 2) with hsmdef
  have hMpos : 0 < ((3/5) / s1) ^ 2 + ((2/5) / s1) ^ 2 := by
    have hp : 0 < ((3/5) / s1) ^ 2 := pow_pos (div_pos (by norm_num) h1) 2
    nlinarith [sq_nonneg ((2/5) / s1)]
  have hsmpos : 0 < sm := hsmdef ▸ hsq _ hMpos
  have hne1 : s1 ≠ 0 := ne_of_gt h1
  have hnea : sa ≠ 0 := ne_of_gt h73
  have hnem : sm ≠ 0 := ne_of_gt hsmpos
  have hX : (3/5 : ℚ) / sa * ((2/5) / s1 / sm) = 6 / (25 * sa * s1 * sm) := by
    field_simp
    ring
  have hY : (8/5 : ℚ) / sa * ((3/5) / s1 / sm) = 24 / (25 * sa * s1 * sm) := by
    field_simp
    ring
  rw [hX, hY]
  have hD : (0 : ℚ) < 25 * sa * s1 * sm :=
    mul_pos (mul_pos (mul_pos (by norm_num) h73) h1) hsmpos
  exact ne_of_lt ((div_lt_div_iff_of_pos_right hD).mpr (by norm_num))

/-- Witness for C7 at the constant square-root function 1 (positive on
positive inputs). -/
theorem normal_at_ignores_ancestors_witness :
    (normalAtSrc (fun _ => 1) nestedSphere nestedQuery).x *
      (chainNormalAt (fun _ => 1) nestedAncestors nestedSphere nestedQuery).y ≠
    (normalAtSrc (fun _ => 1) nestedSphere nestedQuery).y *
      (chainNormalAt (fun _ => 1) nestedAncestors nestedSphere nestedQuery).x :=
  normal_at_ignores_ancestors (fun _ => 1) (fun _ _ => one_pos)

theorem mirror_step (r rNext : RayM) (hI : Inter) (n : ℤ)
    (hhit : hitFn (intersectWorld qsqrt mirrorWorld r) = some hI)
    (hsurf : specLighting qsqrt (prepareComputations qsqrt hI r none).obj.data.material
      (prepareComputations qsqrt hI r none).obj mirrorWorld.light
      (prepareComputations qsqrt hI r none).point (prepareComputations qsqrt hI r none).eye_v
      (prepareComputations qsqrt hI r none).normal
      (isShadowed qsqrt mirrorWorld (prepareComputations qsqrt hI r none).over_point)
      = colorR (19/10) (19/10) (19/10))
    (htr : (prepareComputations qsqrt hI r none).obj.data.material.transparency = 0)
    (hrf : (prepareComputations qsqrt hI r none).obj.data.material.reflective = 1)
    (hray : (⟨(prepareComputations qsqrt hI r none).over_point,
        (prepareComputations qsqrt hI r none).reflect_v⟩ : RayM) = rNext) :
    colorAt qsqrt mirrorWorld r n =
      ((colorR (19/10) (19/10) (19/10)).add
        (if n ≤ 0 then BLACK else (colorAt qsqrt mirrorWorld rNext (n - 1)).smul 1)).add
        BLACK := by
  have hrefr : refractedColor qsqrt mirrorWorld (prepareComputations qsqrt hI r none) n
      = BLACK := by
    simp only [refractedColor]
    rw [if_pos htr]
  have hrefl : reflectedColor qsqrt mirrorWorld (prepareComputations qsqrt hI r none) n
      = if n ≤ 0 then BLACK else (colorAt qsqrt mirrorWorld rNext (n - 1)).smul 1 := by
    simp only [reflectedColor]
    rw [if_neg (by rw [hrf]; norm_num)]
    by_cases hn : n ≤ 0
    · rw [dif_pos hn, if_pos hn]
    · rw [dif_neg hn, if_neg hn, hray, hrf]
  conv_lhs => rw [colorAt.eq_def]
  rw [hhit]
  simp only [shadeHit]
  rw [hsurf, hrefl, hrefr]

theorem mirror_step0 (n : ℤ) : colorAt qsqrt mirrorWorld mirrorRay n =
    ((colorR (19/10) (19/10) (19/10)).add
      (if n ≤ 0 then BLACK
        else (colorAt qsqrt mirrorWorld mirrorRay1 (n - 1)).smul 1)).add BLACK :=
  mirror_step mirrorRay mirrorRay1 (mkInter 1 mirrorUpper) n (by decide) (by decide) (by decide)
    (by decide) (by decide)

theorem mirror_step1 (n : ℤ) : colorAt qsqrt mirrorWorld mirrorRay1 n =
    ((colorR (19/10) (19/10) (19/10)).add
      (if n ≤ 0 then BLACK
        else (colorAt qsqrt mirrorWorld mirrorRay2 (n - 1)).smul 1)).add BLACK :=
  mirror_step mirrorRay1 mirrorRay2 (mkInter (199999/100000) mirrorLower) n (by decide)
    (by decide) (by decide) (by decide) (by decide)

theorem mirror_step2 (n : ℤ) : colorAt qsqrt mirrorWorld mirrorRay2 n =
    ((colorR (19/10) (19/10) (19/10)).add
      (if n ≤ 0 then BLACK
        else (colorAt qsqrt mirrorWorld mirrorRay1 (n - 1)).smul 1)).add BLACK :=
  mirror_step mirrorRay2 mirrorRay1 (mkInter (199999/100000) mirrorUpper) n (by decide)
    (by decide) (by decide) (by decide) (by decide)

/-- C9: the bounce budget: `reflected_color` and `refracted_color` return
black whenever `remaining ≤ 0` regardless of the material, and otherwise pass
`remaining - 1` to their recursive `color_at` call; with the default budget of
5, `color_at` on the two-parallel-fully-reflective-planes scene therefore
terminates, returning the finite color 11.4-gray (six bounce surfaces of
1.9-gray each). -/
theorem bounce_budget_terminates :
    (∀ (sq : ℚ → ℚ) (w : WorldM) (comps : Comps) (remaining : ℤ), remaining ≤ 0 →
      reflectedColor sq w comps remaining = BLACK)
    ∧ (∀ (sq : ℚ → ℚ) (w : WorldM) (comps : Comps) (remaining : ℤ), remaining ≤ 0 →
      refractedColor sq w comps remaining = BLACK)
    ∧ (∀ (sq : ℚ → ℚ) (w : WorldM) (comps : Comps) (remaining : ℤ), ¬remaining ≤ 0 →
      ¬comps.obj.data.material.reflective = 0 →
      reflectedColor sq w comps remaining =
        (colorAt sq w ⟨comps.over_point, comps.reflect_v⟩ (remaining - 1)).smul
          comps.obj.data.material.reflective)
    ∧ (∀ (sq : ℚ → ℚ) (w : WorldM) (comps : Comps) (remaining : ℤ), ¬remaining ≤ 0 →
      ¬comps.obj.data.material.transparency = 0 →
      ¬1 < (comps.n1 / comps.n2) ^ 2 * (1 - dotR comps.eye_v comps.normal ^ 2) →
      refractedColor sq w comps remaining =
        (colorAt sq w ⟨comps.under_point,
          (comps.normal.smul ((comps.n1 / comps.n2) * dotR comps.eye_v comps.normal -
            sq (1 - (comps.n1 / comps.n2) ^ 2 * (1 - dotR comps.eye_v comps.normal ^ 2)))).sub
          (comps.eye_v.smul (comps.n1 / comps.n2))⟩ (remaining - 1)).smul
          comps.obj.data.material.transparency)
    ∧ colorAt qsqrt mirrorWorld mirrorRay 5 = colorR (57/5) (57/5) (57/5) := by
  refine ⟨?_, ?_, ?_, ?_, ?_⟩
  · intro sq w comps remaining hr
    simp only [reflectedColor]
    by_cases h1 : comps.obj.data.material.reflective = 0
    · rw [if_pos h1]
    · rw [if_neg h1, dif_pos hr]
  · intro sq w comps remaining hr
    simp only [refractedColor]
    by_cases h1 : comps.obj.data.material.transparency = 0
    · rw [if_pos h1]
    · rw [if_neg h1, dif_pos hr]
  · intro sq w comps remaining hr h1
    simp only [reflectedColor]
    rw [if_neg h1, dif_neg hr]
  · intro sq w comps remaining hr h1 h2
    simp only [refractedColor]
    rw [if_neg h1, dif_neg hr, if_neg h2]
  · rw [mirror_step0, if_neg (by norm_num),
      mirror_step1, if_neg (by norm_num),
      mirror_step2, if_neg (by norm_num),
      mirror_step1, if_neg (by norm_num),
      mirror_step2, if_neg (by norm_num),
      mirror_step1, if_pos (by norm_num)]
    decide

/-- Witness for C9: the budget rules applied at concrete inputs in the mirror
world (an exhausted budget forces black, and one reflective bounce passes the
decremented budget). -/
theorem bounce_budget_terminates_witness :
    reflectedColor qsqrt mirrorWorld
      (prepareComputations qsqrt (mkInter 1 mirrorUpper) mirrorRay none) 0 = BLACK
    ∧ refractedColor qsqrt mirrorWorld
      (prepareComputations qsqrt (mkInter 1 mirrorUpper) mirrorRay none) (-3) = BLACK
    ∧ reflectedColor qsqrt mirrorWorld
      (prepareComputations qsqrt (mkInter 1 mirrorUpper) mirrorRay none) 5 =
      (colorAt qsqrt mirrorWorld
        ⟨(prepareComputations qsqrt (mkInter 1 mirrorUpper) mirrorRay none).over_point,
         (prepareComputations qsqrt (mkInter 1 mirrorUpper) mirrorRay none).reflect_v⟩ 4).smul
        (prepareComputations qsqrt (mkInter 1 mirrorUpper) mirrorRay none).obj.data.material.reflective := by
  refine ⟨bounce_budget_terminates.1 qsqrt mirrorWorld _ 0 (by norm_num),
    bounce_budget_terminates.2.1 qsqrt mirrorWorld _ (-3) (by norm_num), ?_⟩
  have h := bounce_budget_terminates.2.2.1 qsqrt mirrorWorld
    (prepareComputations qsqrt (mkInter 1 mirrorUpper) mirrorRay none) 5 (by norm_num)
    (by decide)
  simpa using h

end RayTracer
